import Mathlib

/-!
Shallow embedding of the flatten-js ray primitive (`Ray` class) and the
point-in-polygon ray-shooting algorithm (`ray_shoot`), translated from the
repository sources.  Numbers are modelled as exact rationals `ℚ`; the
tolerance comparators mirror the flatten-js fixed-epsilon utilities.
Collaborator classes (Point, Vector, Line, Box, Segment/Arc shapes, the
spatial edge search) are outside the given sources and are modelled from the
specification's collaborator contracts; each such definition is marked
`Modelled from the spec:` in its doc comment.
-/

namespace Flatten

/-- Modelled from the spec: "Numeric tolerance predicates: `EQ`, `EQ_0`, `GE`,
`GT`, `LT` (fixed-epsilon floating comparisons)"; the utilities module is not
under the given sources.  The epsilon is the flatten-js `DP_TOL = 0.000001`. -/
def DP_TOL : ℚ := 1 / 1000000

/-- Modelled from the spec: tolerance test `x ≈ 0`. -/
def EQ_0 (x : ℚ) : Bool := decide (x < DP_TOL) && decide (-DP_TOL < x)

/-- Modelled from the spec: tolerance equality `x ≈ y`. -/
def EQ (x y : ℚ) : Bool := decide (x - y < DP_TOL) && decide (-DP_TOL < x - y)

/-- Modelled from the spec: tolerance strict greater-than. -/
def GT (x y : ℚ) : Bool := decide (DP_TOL < x - y)

/-- Modelled from the spec: tolerance greater-or-equal. -/
def GE (x y : ℚ) : Bool := decide (-DP_TOL < x - y)

/-- Modelled from the spec: tolerance strict less-than. -/
def LT (x y : ℚ) : Bool := decide (x - y < -DP_TOL)

/-- Modelled from the spec: tolerance less-or-equal. -/
def LE (x y : ℚ) : Bool := decide (x - y < DP_TOL)

/-- Modelled from the spec: "Point: (x, y) pair. Immutable value". -/
structure Point where
  x : ℚ
  y : ℚ
deriving DecidableEq, Repr

/-- Modelled from the spec: "Vector: (x, y) pair used as direction/normal". -/
structure Vector where
  x : ℚ
  y : ℚ
deriving DecidableEq, Repr

/-- Modelled from the spec: vector dot product. -/
def Vector.dot (u v : Vector) : ℚ := u.x * v.x + u.y * v.y

/-- Modelled from the spec: vector cross product (z-component). -/
def Vector.cross (u v : Vector) : ℚ := u.x * v.y - u.y * v.x

/-- Modelled from the spec: vector "construction from two points"
(`new Vector(a, b)` is the displacement from `a` to `b`). -/
def vectorFromPoints (a b : Point) : Vector := ⟨b.x - a.x, b.y - a.y⟩

/-- Modelled from the spec: point translation by a vector. -/
def Point.translate (p : Point) (v : Vector) : Point := ⟨p.x + v.x, p.y + v.y⟩

/-- Modelled from the spec: "tolerance equality `equalTo`" on points,
coordinatewise `EQ`. -/
def Point.equalTo (a b : Point) : Bool := EQ a.x b.x && EQ a.y b.y

/-- Extended rational: a box bound that may be `±Infinity`
(spec: "an infinite bound is encoded as ±infinity"). -/
inductive ExtQ where
  | ninf
  | fin (q : ℚ)
  | pinf
deriving DecidableEq, Repr

/-- Strict `<` on extended rationals, as JavaScript compares numbers with
`±Infinity`. -/
def ExtQ.blt : ExtQ → ExtQ → Bool
  | .ninf, .ninf => false
  | .ninf, _ => true
  | .fin _, .ninf => false
  | .fin a, .fin b => decide (a < b)
  | .fin _, .pinf => true
  | .pinf, _ => false

/-- Modelled from the spec: "Box: axis-aligned bounding rectangle ... may be
half-infinite".  Field order follows the flatten-js constructor
`Box(xmin, ymin, xmax, ymax)`. -/
structure Box where
  xmin : ExtQ
  ymin : ExtQ
  xmax : ExtQ
  ymax : ExtQ
deriving DecidableEq, Repr

/-- Modelled from the spec: `Box.not_intersect` fast-reject test
(`xmax < other.xmin || xmin > other.xmax || ymax < other.ymin ||
ymin > other.ymax`, plain comparisons). -/
def Box.not_intersect (a b : Box) : Bool :=
  ExtQ.blt a.xmax b.xmin || ExtQ.blt b.xmax a.xmin ||
  ExtQ.blt a.ymax b.ymin || ExtQ.blt b.ymax a.ymin

/-- Modelled from the spec: a point's "degenerate `box`" (zero area). -/
def Point.box (p : Point) : Box := ⟨.fin p.x, .fin p.y, .fin p.x, .fin p.y⟩

/-- Modelled from the spec: "Line: constructed from a point + normal". -/
structure Line where
  pt : Point
  norm : Vector

/-- Modelled from the spec: "point membership test `on(line)`": the point
equals the line's anchor point, or its displacement from the anchor is
orthogonal (tolerance) to the line's normal. -/
def Point.on (p : Point) (l : Line) : Bool :=
  p.equalTo l.pt || EQ_0 (l.norm.dot (vectorFromPoints l.pt p))

/-- Modelled from the spec: "`leftTo(line)` (side test)": the displacement
from the line's anchor has tolerance-positive dot product with the normal. -/
def Point.leftTo (p : Point) (l : Line) : Bool :=
  GT ((vectorFromPoints l.pt p).dot l.norm) 0

/-- Shape kind tag: `instanceof Segment` / `instanceof Arc` / any other
shape class reaching `Ray.intersect`. -/
inductive ShapeKind where
  | segment
  | arc
  | other
deriving DecidableEq, Repr

/-- Modelled from the spec: "Segment/Arc shapes: each exposes `box`, `start`,
`end`, `tangentInStart()`, `tangentInEnd()`, `length`, and participates in
`Line.intersect`".  The shape is embedded through exactly this observable
interface (a record of the collaborator contract); `lineIntersect` is the
shape's side of `Line.intersect(shape)`, and `endp` stands for the source's
`end` accessor (a Lean keyword). -/
structure Shape where
  kind : ShapeKind
  start : Point
  endp : Point
  box : Box
  tangentInStart : Vector
  tangentInEnd : Vector
  length : ℚ
  lineIntersect : Line → List Point

/-- Modelled from the spec: "Polygon edge: wraps a shape (segment or arc)
plus `prev`/`next` links", represented as an arena of edges with index
links (spec design note: "represent as an arena of edges with indices"). -/
structure Edge where
  shape : Shape
  prev : Nat
  next : Nat

/-- Modelled from the spec: a polygon exposing "(a) an overall bounding box,
(b) an edge collection supporting a spatial range query". -/
structure Polygon where
  edges : List Edge
  box : Box

/-- Modelled from the spec: `edges.search(box)` — "range query returning all
edges whose bounding box intersects the query box", realized as the linear
scan the spec's design note allows; results keep their arena index. -/
def Polygon.search (pg : Polygon) (b : Box) : List (Nat × Edge) :=
  pg.edges.enum.filter (fun ie => !(Box.not_intersect ie.2.shape.box b))

/-- The `Ray` class data: `{pt, norm}` from `classes/ray`. -/
structure Ray where
  pt : Point
  norm : Vector
deriving DecidableEq, Repr

/-- Accessor `Ray.start` (returns `this.pt`). -/
def Ray.start (r : Ray) : Point := r.pt

/-- Translation of `Ray.contains` from `classes/ray`: true if the query point
equals the start point, else the displacement must be tolerance-orthogonal to
the normal with tolerance-nonnegative cross product against the normal. -/
def Ray.contains (r : Ray) (pt : Point) : Bool :=
  if r.pt.equalTo pt then true
  else
    let vec := vectorFromPoints r.pt pt
    EQ_0 (r.norm.dot vec) && GE (vec.cross r.norm) 0

/-- Outcome of `Ray.split` from `classes/ray`: a JavaScript array holding
segments and rays. -/
inductive SegOrRay where
  | seg (ps pe : Point)
  | ray (r : Ray)
deriving DecidableEq, Repr

/-- Translation of `Ray.split` from `classes/ray`. -/
def Ray.split (r : Ray) (pt : Point) : List SegOrRay :=
  if !(r.contains pt) then []
  else if r.pt.equalTo pt then [.ray r]
  else [.seg r.pt pt, .ray ⟨pt, r.norm⟩]

/-- Translation of `Ray.box` from `classes/ray`, rewritten from the slope
comparisons into the equivalent sign conditions on the normal so the bounds
are computable over `ℚ` (the source computes `slope` with `atan2` and
compares it against `π/2`, `π`, `3π/2`; the theorem for claim C9 proves this
definition satisfies exactly those slope formulas, with
`slope = atan2` of the direction `(norm.y, -norm.x)` normalized to
`[0, 2π)`). -/
def Ray.box (r : Ray) : Box where
  xmin := if r.norm.y < 0 then .ninf else .fin r.pt.x
  ymin := if r.norm.x ≤ 0 then .fin r.pt.y else .ninf
  xmax := if r.norm.y < 0 ∨ (r.norm.y = 0 ∧ r.norm.x ≠ 0) then .fin r.pt.x else .pinf
  ymax := if 0 ≤ r.norm.x then .fin r.pt.y else .pinf

/-- Modelled from the spec: JavaScript `Math.atan2(y, x)` over exact reals
(with `atan2(0, 0) = 0`; negative-zero subtleties do not arise over `ℚ`). -/
noncomputable def jsAtan2 (y x : ℝ) : ℝ :=
  if 0 < x then Real.arctan (y / x)
  else if x < 0 then
    (if 0 ≤ y then Real.arctan (y / x) + Real.pi
     else Real.arctan (y / x) - Real.pi)
  else if 0 < y then Real.pi / 2
  else if y < 0 then -(Real.pi / 2)
  else 0

/-- Modelled from the spec: the collaborator `Vector.slope` accessor —
"angle in [0, 2π)" of the vector `(x, y)`, computed as `atan2(y, x)`
normalized by adding `2π` to negative angles. -/
noncomputable def vectorSlope (x y : ℝ) : ℝ :=
  let angle := jsAtan2 y x
  if angle < 0 then 2 * Real.pi + angle else angle

/-- Translation of the `Ray.slope` accessor from `classes/ray`: the slope of
the rotated vector `(norm.y, -norm.x)`, the ray's travel direction. -/
noncomputable def Ray.slope (r : Ray) : ℝ :=
  vectorSlope ((r.norm.y : ℝ)) (-((r.norm.x : ℝ)))

/-- Translation of `Ray.intersectRay2Segment` from `classes/ray`: box
fast-reject, delegate to line∩segment, keep the ray-contained points, and
re-add the ray start when two line intersections collapsed to one and the
start lies on the line. -/
def Ray.intersectRay2Segment (ray : Ray) (segment : Shape) : List Point :=
  if ray.box.not_intersect segment.box then []
  else
    let line : Line := ⟨ray.start, ray.norm⟩
    let ip_tmp := segment.lineIntersect line
    let ip := ip_tmp.filter (fun pt => ray.contains pt)
    if ip_tmp.length = 2 ∧ ip.length = 1 ∧ ray.start.on line then
      ip ++ [ray.start]
    else ip

/-- Translation of `Ray.intersectRay2Arc` from `classes/ray`: box
fast-reject, delegate to line∩arc, keep the ray-contained points (no
recovery step). -/
def Ray.intersectRay2Arc (ray : Ray) (arc : Shape) : List Point :=
  if ray.box.not_intersect arc.box then []
  else
    let line : Line := ⟨ray.start, ray.norm⟩
    let ip_tmp := arc.lineIntersect line
    ip_tmp.filter (fun pt => ray.contains pt)

/-- Translation of `Ray.intersect` from `classes/ray`: dispatch on
`instanceof Segment` / `instanceof Arc`; any other shape falls through and
the JavaScript method returns `undefined`, modelled as `none`. -/
def Ray.intersect (r : Ray) (shape : Shape) : Option (List Point) :=
  if shape.kind = ShapeKind.segment then some (r.intersectRay2Segment shape)
  else if shape.kind = ShapeKind.arc then some (r.intersectRay2Arc shape)
  else none

/-- Result of `ray_shoot`: the constants `INSIDE` / `OUTSIDE` / `BOUNDARY`
from `utils/constants`. -/
inductive PolygonRel where
  | INSIDE
  | OUTSIDE
  | BOUNDARY
deriving DecidableEq, Repr

/-- One accumulated intersection of `ray_shoot`: the intersection point and
the owning edge (with its arena index, standing for JavaScript object
identity in the `===` comparisons). -/
structure Inter where
  pt : Point
  idx : Nat
  edge : Edge

/-- Translation of the predecessor walk in `ray_shoot`
(`while (EQ_0(prev_edge.length)) prev_edge = prev_edge.prev`): zero-length
edges are skipped through their `prev` links.  The JavaScript loop is
unbounded; the `fuel` argument is the totality device, and `none` models a
walk that has not found a non-zero-length edge within `fuel` lookups (an
out-of-range index, impossible for well-formed polygons, also yields
`none`). -/
def walkPrev (edges : List Edge) : Nat → Nat → Option Edge
  | 0, _ => none
  | fuel + 1, i =>
    match edges.get? i with
    | none => none
    | some e => if EQ_0 e.shape.length then walkPrev edges fuel e.prev else some e

/-- Translation of the successor walk in `ray_shoot`
(`while (EQ_0(next_edge.length)) next_edge = next_edge.next`), with the same
fuel device as `walkPrev`. -/
def walkNext (edges : List Edge) : Nat → Nat → Option Edge
  | 0, _ =>  none
  | fuel + 1, i =>
    match edges.get? i with
    | none => none
    | some e => if EQ_0 e.shape.length then walkNext edges fuel e.next else some e

/-- Duplicate-skip guard of the start-vertex case of `ray_shoot`:
`i > 0 && intersection.pt.equalTo(intersections[i-1].pt) &&
intersection.edge.prev === intersections[i-1].edge`. -/
def dupOfPrevStart (previ : Option Inter) (cur : Inter) : Bool :=
  match previ with
  | some p => cur.pt.equalTo p.pt && cur.edge.prev == p.idx
  | none => false

/-- Duplicate-skip guard of the end-vertex case of `ray_shoot`:
`i > 0 && intersection.pt.equalTo(intersections[i-1].pt) &&
intersection.edge.next === intersections[i-1].edge`. -/
def dupOfPrevEnd (previ : Option Inter) (cur : Inter) : Bool :=
  match previ with
  | some p => cur.pt.equalTo p.pt && cur.edge.next == p.idx
  | none => false

/-- Tolerance equality of a coordinate against a possibly infinite box
bound; in JavaScript `EQ(y, Infinity)` is false since `y - Infinity` fails
the lower tolerance bound. -/
def EQext (q : ℚ) : ExtQ → Bool
  | .fin v => EQ q v
  | _ => false

/-- Translation of one iteration of the crossing-counting loop of
`ray_shoot` (step 5): returns the counter increment (`0` or `1`) for this
intersection, or `none` when a tangent walk diverges.  `previ` is
`intersections[i-1]` when `i > 0`. -/
def countStep (edges : List Edge) (line : Line) (fuel : Nat)
    (previ : Option Inter) (cur : Inter) : Option Nat :=
  if cur.pt.equalTo cur.edge.shape.start then
    if dupOfPrevStart previ cur then some 0
    else
      match walkPrev edges fuel cur.edge.prev with
      | none => none
      | some prev_edge =>
        let prev_point := cur.pt.translate prev_edge.shape.tangentInEnd
        let cur_point := cur.pt.translate cur.edge.shape.tangentInStart
        let prev_on_the_left := prev_point.leftTo line
        let cur_on_the_left := cur_point.leftTo line
        if (prev_on_the_left && !cur_on_the_left) ||
           (!prev_on_the_left && cur_on_the_left) then some 1 else some 0
  else if cur.pt.equalTo cur.edge.shape.endp then
    if dupOfPrevEnd previ cur then some 0
    else
      match walkNext edges fuel cur.edge.next with
      | none => none
      | some next_edge =>
        let next_point := cur.pt.translate next_edge.shape.tangentInStart
        let cur_point := cur.pt.translate cur.edge.shape.tangentInEnd
        let next_on_the_left := next_point.leftTo line
        let cur_on_the_left := cur_point.leftTo line
        if (next_on_the_left && !cur_on_the_left) ||
           (!next_on_the_left && cur_on_the_left) then some 1 else some 0
  else
    if cur.edge.shape.kind = ShapeKind.segment then some 1
    else
      if !(EQext cur.pt.y cur.edge.shape.box.ymin ||
           EQext cur.pt.y cur.edge.shape.box.ymax) then some 1 else some 0

/-- The crossing-counting loop of `ray_shoot` over the sorted intersections,
threading the previous entry for the duplicate-skip guards. -/
def countLoop (edges : List Edge) (line : Line) (fuel : Nat) :
    Option Inter → List Inter → Nat → Option Nat
  | _, [], acc => some acc
  | previ, cur :: rest, acc =>
    match countStep edges line fuel previ cur with
    | none => none
    | some c => countLoop edges line fuel (some cur) rest (acc + c)

/-- Insertion step of the x-ascending sort of `ray_shoot` (step 4): pass
elements strictly `LT`-below, keeping ties in encounter order as the
(stable) JavaScript `Array.sort` does. -/
def insertByX (x : Inter) : List Inter → List Inter
  | [] => [x]
  | y :: ys => if LT y.pt.x x.pt.x then y :: insertByX x ys else x :: y :: ys

/-- Stable sort of the intersections by `x` with the tolerance comparator of
`ray_shoot` (ties are equal, no secondary key). -/
def sortByX : List Inter → List Inter
  | [] => []
  | x :: xs => insertByX x (sortByX xs)

/-- Intersection-gathering loop of `ray_shoot` (step 3): every candidate
edge is intersected with the ray; a shape that is neither segment nor arc
makes `ray.intersect` return `undefined`, over which the `for..of` loop
throws — modelled as `none`. -/
def gatherIntersections (ray : Ray) : List (Nat × Edge) → Option (List Inter)
  | [] => some []
  | (idx, e) :: rest =>
    match ray.intersect e.shape with
    | none => none
    | some pts =>
      match gatherIntersections ray rest with
      | none => none
      | some tail => some (pts.map (fun p => ⟨p, idx, e⟩) ++ tail)

/-- Translation of `ray_shoot` from `algorithms/ray_shooting`: quick reject
on the boxes, horizontal ray and line through the query point, spatial
search for candidate edges, intersection gathering with an immediate
`BOUNDARY` on an intersection equal to the query point, x-ascending sort,
crossing count, and parity.  `none` models the runs where the JavaScript
function does not return (a diverging tangent walk or an iteration over
`undefined`); the walks get fuel `edges.length + 1`, which decides the
unbounded loop (beyond that many lookups the cyclic walk revisits only
zero-length edges). -/
def ray_shoot (polygon : Polygon) (point : Point) : Option PolygonRel :=
  if polygon.box.not_intersect point.box then some .OUTSIDE
  else
    let ray : Ray := ⟨point, ⟨0, 1⟩⟩
    let line : Line := ⟨ray.pt, ray.norm⟩
    let resp_edges := polygon.search ray.box
    if resp_edges.length = 0 then some .OUTSIDE
    else
      match gatherIntersections ray resp_edges with
      | none => none
      | some intersections =>
        if intersections.any (fun i => i.pt.equalTo point) then some .BOUNDARY
        else
          let sorted := sortByX intersections
          match countLoop polygon.edges line (polygon.edges.length + 1)
              none sorted 0 with
          | none => none
          | some counter =>
            some (if counter % 2 = 1 then .INSIDE else .OUTSIDE)

/-- A JavaScript value reaching the variadic `Ray` constructor. -/
inductive JsValue where
  | point (p : Point)
  | vector (v : Vector)
  | num (q : ℚ)
  | other

/-- The error thrown by the `Ray` constructor. -/
inductive GeomError where
  | illegalParameters
deriving DecidableEq, Repr

/-- First constructor argument as the ray's start point: the source copies
`args[0]` when it is `instanceof Point` and otherwise keeps the default
`(0,0)`. -/
def ptArg : JsValue → Point
  | .point p => p
  | _ => ⟨0, 0⟩

/-- Translation of the `Ray` constructor from `classes/ray`: defaults
`pt = (0,0)`, `norm = (0,1)`; zero arguments return the defaults; one
argument returns (with the point taken from `args[0]` when it is a Point);
two arguments succeed exactly when the second is a Vector; everything else
throws `ILLEGAL_PARAMETERS`. -/
def rayConstruct (args : List JsValue) : Except GeomError Ray :=
  match args with
  | [] => .ok ⟨⟨0, 0⟩, ⟨0, 1⟩⟩
  | [a] => .ok ⟨ptArg a, ⟨0, 1⟩⟩
  | [a, .vector v] => .ok ⟨ptArg a, v⟩
  | _ => .error .illegalParameters

/-- Modelled from the spec: `Line.intersect(segment)` — "produces 0, 1, or 2
points for a segment" (the intersection algorithms module is not under the
given sources).  Collinear segments contribute both endpoints; otherwise the
line `{p : norm·(p - pt) = 0}` is intersected with the segment's
parametrization `a + t·(b - a)`, keeping the point when `t ∈ [0,1]` under
tolerance. -/
def intersectLine2Segment (ps pe : Point) (l : Line) : List Point :=
  if ps.on l && pe.on l then [ps, pe]
  else
    let d : Vector := vectorFromPoints ps pe
    let denom := l.norm.dot d
    if EQ_0 denom then []
    else
      let t := (l.norm.dot (vectorFromPoints ps l.pt)) / denom
      if GE t 0 && LE t 1 then [⟨ps.x + t * d.x, ps.y + t * d.y⟩] else []

/-- Modelled from the spec: a straight-segment shape as the collaborator
interface record — endpoints, finite bounding box, the collaborator-supplied
unit tangents and length, and the line-intersection delegate. -/
def segShape (ps pe : Point) (tanS tanE : Vector) (len : ℚ) : Shape where
  kind := .segment
  start := ps
  endp := pe
  box := ⟨.fin (min ps.x pe.x), .fin (min ps.y pe.y),
          .fin (max ps.x pe.x), .fin (max ps.y pe.y)⟩
  tangentInStart := tanS
  tangentInEnd := tanE
  length := len
  lineIntersect := intersectLine2Segment ps pe

/-- The unit square polygon with vertices (0,0),(1,0),(1,1),(0,1): four unit
segment edges in a cyclic ring (edge `i` links to `i∓1 mod 4`), overall box
`[0,1] × [0,1]`. -/
def unitSquare : Polygon where
  edges :=
    [⟨segShape ⟨0, 0⟩ ⟨1, 0⟩ ⟨1, 0⟩ ⟨1, 0⟩ 1, 3, 1⟩,
     ⟨segShape ⟨1, 0⟩ ⟨1, 1⟩ ⟨0, 1⟩ ⟨0, 1⟩ 1, 0, 2⟩,
     ⟨segShape ⟨1, 1⟩ ⟨0, 1⟩ ⟨-1, 0⟩ ⟨-1, 0⟩ 1, 1, 3⟩,
     ⟨segShape ⟨0, 1⟩ ⟨0, 0⟩ ⟨0, -1⟩ ⟨0, -1⟩ 1, 2, 0⟩]
  box := ⟨.fin 0, .fin 0, .fin 1, .fin 1⟩

/-- A degenerate zero-length edge whose links point to itself; also used as
the lookup default of the walk lemmas. -/
def dummyEdge : Edge := ⟨segShape ⟨0, 0⟩ ⟨0, 0⟩ ⟨0, 0⟩ ⟨0, 0⟩ 0, 0, 0⟩

/-- Fixture: the horizontal line through the origin with the default
normal. -/
def line0 : Line := ⟨⟨0, 0⟩, ⟨0, 1⟩⟩

/-- Fixture: an edge ending at the origin, unit length, whose end tangent
points up. -/
def fixEdgeA : Edge := ⟨segShape ⟨-1, -1⟩ ⟨0, 0⟩ ⟨1, 1⟩ ⟨0, 1⟩ 1, 1, 1⟩

/-- Fixture: an edge starting at the origin, unit length, whose start
tangent points down. -/
def fixEdgeB : Edge := ⟨segShape ⟨0, 0⟩ ⟨1, -1⟩ ⟨0, -1⟩ ⟨1, 0⟩ 1, 0, 0⟩

/-- Fixture: the two-edge arena for the vertex-rule witnesses. -/
def fixEdges : List Edge := [fixEdgeA, fixEdgeB]

/-- Fixture: an arc-kind shape over the upper half box `[-1,1] × [0,1]`. -/
def fixArc : Shape :=
  ⟨.arc, ⟨-1, 0⟩, ⟨1, 0⟩, ⟨.fin (-1), .fin 0, .fin 1, .fin 1⟩,
   ⟨0, 1⟩, ⟨0, -1⟩, 3, fun _ => []⟩

/-- Fixture: a self-linked edge wrapping the arc shape. -/
def fixArcEdge : Edge := ⟨fixArc, 0, 0⟩

/-- Fixture: the horizontal ray from the origin with the default normal. -/
def ray0 : Ray := ⟨⟨0, 0⟩, ⟨0, 1⟩⟩

/-- Fixture: a segment collinear with `ray0`, straddling its start point. -/
def segColl : Shape := segShape ⟨-1, 0⟩ ⟨1, 0⟩ ⟨1, 0⟩ ⟨1, 0⟩ 2

/-- Fixture: an arc-kind shape collinear with `ray0` in the sense that its
line intersection yields one point ahead of the ray start and one behind. -/
def arcColl : Shape :=
  ⟨.arc, ⟨-1, 0⟩, ⟨1, 0⟩, ⟨.fin (-1), .fin 0, .fin 1, .fin 1⟩,
   ⟨0, 1⟩, ⟨0, -1⟩, 3, fun _ => [⟨1, 0⟩, ⟨-1, 0⟩]⟩

/-- Fixture: a shape that is neither a segment nor an arc. -/
def otherShape : Shape :=
  ⟨.other, ⟨0, 0⟩, ⟨0, 0⟩, ⟨.fin 0, .fin 0, .fin 0, .fin 0⟩,
   ⟨0, 0⟩, ⟨0, 0⟩, 0, fun _ => []⟩

/-- Fixture: a two-edge ring whose edge 0 has zero length and edge 1 unit
length, with cyclic links. -/
def ringTwo : List Edge :=
  [⟨segShape ⟨0, 0⟩ ⟨0, 0⟩ ⟨0, 0⟩ ⟨0, 0⟩ 0, 1, 1⟩,
   ⟨segShape ⟨0, 0⟩ ⟨1, 0⟩ ⟨1, 0⟩ ⟨1, 0⟩ 1, 0, 0⟩]

/-- Fixture: a degenerate polygon whose single edge has zero length and
links to itself, with a collaborator box containing the query point
`(1,1)`. -/
def zeroPolygon : Polygon where
  edges := [⟨segShape ⟨2, 1⟩ ⟨2, 1⟩ ⟨0, 0⟩ ⟨0, 0⟩ 0, 0, 0⟩]
  box := ⟨.fin 0, .fin 0, .fin 3, .fin 3⟩

section EvalSection

attribute [local semireducible] Rat.add Rat.sub Rat.mul Rat.inv

/-- Helper: tolerance equality of a point with itself. -/
theorem Point.equalTo_self (p : Point) : p.equalTo p = true := by
  simp only [Point.equalTo, EQ, sub_self]
  decide

/-- C1: for the unit square polygon with vertices (0,0),(1,0),(1,1),(0,1),
`ray_shoot` returns INSIDE at (0.5, 0.5), OUTSIDE at (2, 0.5), and BOUNDARY
at (1, 0.5) on the right edge. -/
theorem ray_shoot_unit_square :
    ray_shoot unitSquare ⟨1/2, 1/2⟩ = some PolygonRel.INSIDE ∧
    ray_shoot unitSquare ⟨2, 1/2⟩ = some PolygonRel.OUTSIDE ∧
    ray_shoot unitSquare ⟨1, 1/2⟩ = some PolygonRel.BOUNDARY := by
  refine ⟨by decide, by decide, by decide⟩

/-- C7: `Ray.contains p` holds exactly when `p` equals the start point under
tolerance, or the vector from the start to `p` has tolerance-zero dot
product with the normal and tolerance-nonnegative cross product with it; in
particular the start point is always contained. -/
theorem ray_contains_iff (r : Ray) (p : Point) :
    (r.contains p = true ↔
      (r.pt.equalTo p = true ∨
        (EQ_0 (r.norm.dot (vectorFromPoints r.pt p)) = true ∧
         GE ((vectorFromPoints r.pt p).cross r.norm) 0 = true))) ∧
    r.contains r.pt = true := by
  constructor
  · by_cases h : r.pt.equalTo p = true <;>
      simp [Ray.contains, h]
  · simp [Ray.contains, Point.equalTo_self]

/-- C8: `Ray.split p` returns the empty array when the ray does not contain
`p`; the single-element array holding the ray itself when `p` equals the
start point; and otherwise the segment from the start to `p` followed by a
new ray from `p` with the same normal. -/
theorem ray_split_spec (r : Ray) (p : Point) :
    (r.contains p = false → r.split p = []) ∧
    (r.pt.equalTo p = true → r.split p = [.ray r]) ∧
    (r.contains p = true → r.pt.equalTo p = false →
      r.split p = [.seg r.pt p, .ray ⟨p, r.norm⟩]) := by
  refine ⟨fun h => ?_, fun h => ?_, fun h h2 => ?_⟩
  · simp [Ray.split, h]
  · simp [Ray.split, Ray.contains, h]
  · simp [Ray.split, h, h2]

/-- Witness for C8 at the default ray: (0,1) is off the ray, (0,0) is its
start point, and (1,0) is ahead on it. -/
theorem ray_split_spec_witness :
    Ray.split ⟨⟨0, 0⟩, ⟨0, 1⟩⟩ ⟨0, 1⟩ = [] ∧
    Ray.split ⟨⟨0, 0⟩, ⟨0, 1⟩⟩ ⟨0, 0⟩ = [.ray ⟨⟨0, 0⟩, ⟨0, 1⟩⟩] ∧
    Ray.split ⟨⟨0, 0⟩, ⟨0, 1⟩⟩ ⟨1, 0⟩ =
      [.seg ⟨0, 0⟩ ⟨1, 0⟩, .ray ⟨⟨1, 0⟩, ⟨0, 1⟩⟩] :=
  ⟨(ray_split_spec _ _).1 (by decide),
   (ray_split_spec _ _).2.1 (by decide),
   (ray_split_spec _ _).2.2 (by decide) (by decide)⟩

/-- C10: `Ray.intersect` with a shape that is neither a segment nor an arc
falls through both `instanceof` tests and produces no value (`undefined`,
modelled as `none`), so iterating callers fail. -/
theorem ray_intersect_other_kind_none (r : Ray) (s : Shape)
    (h1 : s.kind ≠ ShapeKind.segment) (h2 : s.kind ≠ ShapeKind.arc) :
    r.intersect s = none := by
  simp [Ray.intersect, h1, h2]

/-- Witness for C10: the other-kind fixture shape. -/
theorem ray_intersect_other_kind_none_witness :
    Ray.intersect ray0 otherShape = none :=
  ray_intersect_other_kind_none ray0 otherShape (by decide) (by decide)

/-- Counterexample for C5: a single non-Point argument (the number 5) does
not throw the illegal-parameters error as the claim demands; the constructor
silently returns the default ray. -/
theorem rayConstruct_single_num_ok :
    rayConstruct [JsValue.num 5] = Except.ok ⟨⟨0, 0⟩, ⟨0, 1⟩⟩ := rfl

/-- C5 (amended): the constructor succeeds on zero arguments, on any single
argument (a Point becomes the start point, anything else is ignored), and on
two arguments whose second is a Vector (a Point first argument becomes the
start point, anything else is ignored); it throws the illegal-parameters
error exactly when given two arguments whose second is not a Vector, or
three or more arguments. -/
theorem rayConstruct_characterization :
    (∀ args : List JsValue,
      rayConstruct args = Except.error GeomError.illegalParameters ↔
        ((∃ a b, args = [a, b] ∧ ∀ v, b ≠ JsValue.vector v) ∨
          3 ≤ args.length)) ∧
    rayConstruct [] = Except.ok ⟨⟨0, 0⟩, ⟨0, 1⟩⟩ ∧
    (∀ a, rayConstruct [a] = Except.ok ⟨ptArg a, ⟨0, 1⟩⟩) ∧
    (∀ a v, rayConstruct [a, JsValue.vector v] = Except.ok ⟨ptArg a, v⟩) := by
  refine ⟨fun args => ?_, rfl, fun a => rfl, fun a v => rfl⟩
  match args with
  | [] => simp [rayConstruct]
  | [a] => simp [rayConstruct]
  | [a, b] =>
    cases b <;> simp [rayConstruct] <;>
      exact ⟨a, _, ⟨rfl, rfl⟩, fun v => by simp⟩
  | a :: b :: c :: rest => simp [rayConstruct]

/-- C2: at a sorted intersection coinciding with its edge's start vertex and
not skipped by the duplicate guard, the crossing counter is incremented
exactly when the intersection point translated by the (zero-length-skipping)
predecessor's end tangent and the point translated by the current edge's
start tangent lie on opposite sides (`leftTo`) of the ray's line; the
symmetric rule holds at an edge's end vertex with the successor's start
tangent. -/
theorem countStep_vertex_tangent_rule (edges : List Edge) (line : Line)
    (fuel : Nat) (previ : Option Inter) (cur : Inter) :
    (∀ prev_edge,
      cur.pt.equalTo cur.edge.shape.start = true →
      dupOfPrevStart previ cur = false →
      walkPrev edges fuel cur.edge.prev = some prev_edge →
      countStep edges line fuel previ cur =
        some (if (cur.pt.translate prev_edge.shape.tangentInEnd).leftTo line
                 ≠ (cur.pt.translate cur.edge.shape.tangentInStart).leftTo line
              then 1 else 0)) ∧
    (∀ next_edge,
      cur.pt.equalTo cur.edge.shape.start = false →
      cur.pt.equalTo cur.edge.shape.endp = true →
      dupOfPrevEnd previ cur = false →
      walkNext edges fuel cur.edge.next = some next_edge →
      countStep edges line fuel previ cur =
        some (if (cur.pt.translate next_edge.shape.tangentInStart).leftTo line
                 ≠ (cur.pt.translate cur.edge.shape.tangentInEnd).leftTo line
              then 1 else 0)) := by
  constructor
  · intro prev_edge hstart hdup hwalk
    simp only [countStep, hstart, hdup, hwalk]
    cases hp : (cur.pt.translate prev_edge.shape.tangentInEnd).leftTo line <;>
      cases hc : (cur.pt.translate cur.edge.shape.tangentInStart).leftTo line <;>
        simp
  · intro next_edge hstart hend hdup hwalk
    simp only [countStep, hstart, hend, hdup, hwalk]
    cases hn : (cur.pt.translate next_edge.shape.tangentInStart).leftTo line <;>
      cases hc : (cur.pt.translate cur.edge.shape.tangentInEnd).leftTo line <;>
        simp

/-- Witness for C2: at the origin vertex of the `fixEdges` ring (predecessor
end tangent up, current start tangent down — opposite sides of the line
`y = 0`) the start-vertex case and the end-vertex case each count one
crossing. -/
theorem countStep_vertex_tangent_rule_witness :
    countStep fixEdges line0 3 none ⟨⟨0, 0⟩, 1, fixEdgeB⟩ = some 1 ∧
    countStep fixEdges line0 3 none ⟨⟨0, 0⟩, 0, fixEdgeA⟩ = some 1 := by
  constructor
  · rw [(countStep_vertex_tangent_rule fixEdges line0 3 none
      ⟨⟨0, 0⟩, 1, fixEdgeB⟩).1 fixEdgeA (by decide) (by decide) (by rfl)]
    decide
  · rw [(countStep_vertex_tangent_rule fixEdges line0 3 none
      ⟨⟨0, 0⟩, 0, fixEdgeA⟩).2 fixEdgeB (by decide) (by decide) (by decide)
      (by rfl)]
    decide

/-- C3: an intersection in the edge's interior (coinciding with neither
vertex under tolerance) increments the crossing counter unconditionally for
a straight segment; for an arc it increments the counter exactly when the
point's y-coordinate differs under tolerance from both the arc box's `ymin`
and `ymax`. -/
theorem countStep_interior_rule (edges : List Edge) (line : Line)
    (fuel : Nat) (previ : Option Inter) (cur : Inter)
    (h1 : cur.pt.equalTo cur.edge.shape.start = false)
    (h2 : cur.pt.equalTo cur.edge.shape.endp = false) :
    (cur.edge.shape.kind = ShapeKind.segment →
      countStep edges line fuel previ cur = some 1) ∧
    (cur.edge.shape.kind = ShapeKind.arc →
      countStep edges line fuel previ cur =
        some (if EQext cur.pt.y cur.edge.shape.box.ymin = false ∧
                 EQext cur.pt.y cur.edge.shape.box.ymax = false
              then 1 else 0)) := by
  constructor
  · intro hk
    simp only [countStep, h1, h2]
    simp [hk]
  · intro hk
    simp only [countStep, h1, h2, hk]
    cases hy1 : EQext cur.pt.y cur.edge.shape.box.ymin <;>
      cases hy2 : EQext cur.pt.y cur.edge.shape.box.ymax <;>
        simp

/-- Witness for C3: an interior intersection on a segment edge counts one;
on the arc fixture an interior intersection at the box top counts zero while
one strictly inside the box's y-range counts one. -/
theorem countStep_interior_rule_witness :
    countStep fixEdges line0 3 none ⟨⟨1/2, -1/2⟩, 1, fixEdgeB⟩ = some 1 ∧
    countStep fixEdges line0 3 none ⟨⟨0, 1⟩, 0, fixArcEdge⟩ = some 0 ∧
    countStep fixEdges line0 3 none ⟨⟨0, 1/2⟩, 0, fixArcEdge⟩ = some 1 := by
  refine ⟨?_, ?_, ?_⟩
  · exact (countStep_interior_rule fixEdges line0 3 none _
      (by decide) (by decide)).1 (by decide)
  · rw [(countStep_interior_rule fixEdges line0 3 none _
      (by decide) (by decide)).2 (by decide)]
    decide
  · rw [(countStep_interior_rule fixEdges line0 3 none _
      (by decide) (by decide)).2 (by decide)]
    decide

/-- C4: past the box fast-reject, `Ray.intersect` with a segment returns the
line∩segment points filtered to those the ray contains, re-adding the ray's
start point exactly when the line intersection produced 2 points, the filter
kept 1, and the start lies on the line; with an arc it returns the filtered
points only, never re-adding the start. -/
theorem ray_intersect_filter_recovery (r : Ray) (s : Shape) :
    (s.kind = ShapeKind.segment → r.box.not_intersect s.box = false →
      r.intersect s = some (
        let ip_tmp := s.lineIntersect ⟨r.start, r.norm⟩
        let ip := ip_tmp.filter (fun pt => r.contains pt)
        if ip_tmp.length = 2 ∧ ip.length = 1 ∧
            r.start.on ⟨r.start, r.norm⟩ then ip ++ [r.start] else ip)) ∧
    (s.kind = ShapeKind.arc → r.box.not_intersect s.box = false →
      r.intersect s =
        some ((s.lineIntersect ⟨r.start, r.norm⟩).filter
          (fun pt => r.contains pt))) := by
  constructor
  · intro hk hbox
    simp [Ray.intersect, Ray.intersectRay2Segment, hk, hbox]
  · intro hk hbox
    simp [Ray.intersect, Ray.intersectRay2Arc, hk, hbox]

/-- Witness for C4: for the collinear segment fixture the recovery rule
fires (line∩segment gives both endpoints, the filter drops the one behind
the start, and the start is re-added); for the arc fixture only the filtered
point ahead of the start is returned. -/
theorem ray_intersect_filter_recovery_witness :
    Ray.intersect ray0 segColl = some [⟨1, 0⟩, ⟨0, 0⟩] ∧
    Ray.intersect ray0 arcColl = some [⟨1, 0⟩] := by
  constructor
  · rw [(ray_intersect_filter_recovery ray0 segColl).1 (by rfl) (by decide)]
    decide
  · rw [(ray_intersect_filter_recovery ray0 arcColl).2 (by rfl) (by decide)]
    decide

/-- Counterexample for C6: with a polygon consisting of a single zero-length
self-linked edge, the tangent walks return no edge within the edge count
(or any larger fuel) — the JavaScript loop never exits — and `ray_shoot`
itself yields no result on a degenerate polygon whose boundary meets the ray
at such a vertex. -/
theorem walk_allzero_diverges :
    walkPrev [dummyEdge] 1 0 = none ∧ walkNext [dummyEdge] 1 0 = none ∧
    walkPrev [dummyEdge] 100 0 = none ∧ walkNext [dummyEdge] 100 0 = none ∧
    ray_shoot zeroPolygon ⟨1, 1⟩ = none := by
  refine ⟨rfl, rfl, rfl, rfl, by decide⟩

end EvalSection

/-- Helper: the backward walk succeeds within `fuel` lookups as soon as a
position on its cyclic orbit within `fuel` steps holds a non-zero-length
edge; `m` is the cyclic shift of the `prev` links (`j ↦ (j + m) % n`). -/
theorem walkPrev_finds (edges : List Edge) (m : Nat)
    (hm : ∀ j, j < edges.length →
      (edges.getD j dummyEdge).prev = (j + m) % edges.length) :
    ∀ fuel i, i < edges.length →
      (∃ k, k < fuel ∧
        EQ_0 ((edges.getD ((i + m * k) % edges.length)
          dummyEdge).shape.length) = false) →
      ∃ e, walkPrev edges fuel i = some e ∧ EQ_0 e.shape.length = false
  | 0, _, _, ⟨k, hk, _⟩ => absurd hk (Nat.not_lt_zero k)
  | fuel + 1, i, hi, ⟨k, hk, hnzk⟩ => by
    have hgd : edges.getD i dummyEdge = edges.get ⟨i, hi⟩ := by
      rw [List.getD_eq_get?, List.get?_eq_get hi]
      rfl
    have hget : edges.get? i = some (edges.getD i dummyEdge) := by
      rw [hgd, List.get?_eq_get hi]
    by_cases hz : EQ_0 ((edges.getD i dummyEdge).shape.length) = true
    · have hk0 : k ≠ 0 := by
        intro h0
        subst h0
        rw [Nat.mul_zero, Nat.add_zero, Nat.mod_eq_of_lt hi] at hnzk
        rw [hnzk] at hz
        cases hz
      obtain ⟨k', rfl⟩ := Nat.exists_eq_succ_of_ne_zero hk0
      have hn : 0 < edges.length := Nat.lt_of_le_of_lt (Nat.zero_le i) hi
      have hi' : (i + m) % edges.length < edges.length := Nat.mod_lt _ hn
      have horb : ((i + m) % edges.length + m * k') % edges.length
          = (i + m * (k' + 1)) % edges.length := by
        rw [Nat.mod_add_mod]
        congr 1
        rw [Nat.mul_succ]
        omega
      have hrec := walkPrev_finds edges m hm fuel ((i + m) % edges.length)
        hi' ⟨k', Nat.lt_of_succ_lt_succ hk, by rw [horb]; exact hnzk⟩
      simp only [walkPrev, hget, hz, if_true]
      rw [hm i hi]
      exact hrec
    · have hz' : EQ_0 ((edges.getD i dummyEdge).shape.length) = false :=
        Bool.eq_false_iff.mpr hz
      refine ⟨edges.getD i dummyEdge, ?_, hz'⟩
      simp only [walkPrev, hget, hz', Bool.false_eq_true, if_false]

/-- Helper: forward-walk analogue of `walkPrev_finds` for the `next`
links. -/
theorem walkNext_finds (edges : List Edge) (m : Nat)
    (hm : ∀ j, j < edges.length →
      (edges.getD j dummyEdge).next = (j + m) % edges.length) :
    ∀ fuel i, i < edges.length →
      (∃ k, k < fuel ∧
        EQ_0 ((edges.getD ((i + m * k) % edges.length)
          dummyEdge).shape.length) = false) →
      ∃ e, walkNext edges fuel i = some e ∧ EQ_0 e.shape.length = false
  | 0, _, _, ⟨k, hk, _⟩ => absurd hk (Nat.not_lt_zero k)
  | fuel + 1, i, hi, ⟨k, hk, hnzk⟩ => by
    have hgd : edges.getD i dummyEdge = edges.get ⟨i, hi⟩ := by
      rw [List.getD_eq_get?, List.get?_eq_get hi]
      rfl
    have hget : edges.get? i = some (edges.getD i dummyEdge) := by
      rw [hgd, List.get?_eq_get hi]
    by_cases hz : EQ_0 ((edges.getD i dummyEdge).shape.length) = true
    · have hk0 : k ≠ 0 := by
        intro h0
        subst h0
        rw [Nat.mul_zero, Nat.add_zero, Nat.mod_eq_of_lt hi] at hnzk
        rw [hnzk] at hz
        cases hz
      obtain ⟨k', rfl⟩ := Nat.exists_eq_succ_of_ne_zero hk0
      have hn : 0 < edges.length := Nat.lt_of_le_of_lt (Nat.zero_le i) hi
      have hi' : (i + m) % edges.length < edges.length := Nat.mod_lt _ hn
      have horb : ((i + m) % edges.length + m * k') % edges.length
          = (i + m * (k' + 1)) % edges.length := by
        rw [Nat.mod_add_mod]
        congr 1
        rw [Nat.mul_succ]
        omega
      have hrec := walkNext_finds edges m hm fuel ((i + m) % edges.length)
        hi' ⟨k', Nat.lt_of_succ_lt_succ hk, by rw [horb]; exact hnzk⟩
      simp only [walkNext, hget, hz, if_true]
      rw [hm i hi]
      exact hrec
    · have hz' : EQ_0 ((edges.getD i dummyEdge).shape.length) = false :=
        Bool.eq_false_iff.mpr hz
      refine ⟨edges.getD i dummyEdge, ?_, hz'⟩
      simp only [walkNext, hget, hz', Bool.false_eq_true, if_false]

/-- Helper: on a cyclic ring of `n` positions, stepping forward by one
reaches any target position within `n` steps. -/
theorem ring_hit_fwd (n i j : Nat) (hi : i < n) (hj : j < n) :
    ∃ k, k < n ∧ (i + 1 * k) % n = j := by
  rcases le_or_lt i j with h | h
  · refine ⟨j - i, by omega, ?_⟩
    rw [Nat.one_mul, (by omega : i + (j - i) = j)]
    exact Nat.mod_eq_of_lt hj
  · refine ⟨j + n - i, by omega, ?_⟩
    rw [Nat.one_mul, (by omega : i + (j + n - i) = j + n), Nat.add_mod_right]
    exact Nat.mod_eq_of_lt hj

/-- Helper: on a cyclic ring of `n` positions, stepping backward (shift
`n - 1`) reaches any target position within `n` steps. -/
theorem ring_hit_back (n i j : Nat) (hi : i < n) (hj : j < n) :
    ∃ k, k < n ∧ (i + (n - 1) * k) % n = j := by
  rcases le_or_lt j i with h | h
  · refine ⟨i - j, by omega, ?_⟩
    have hkK : i - j ≤ n * (i - j) := Nat.le_mul_of_pos_left _ (by omega)
    rw [Nat.sub_mul, Nat.one_mul,
      (by omega : i + (n * (i - j) - (i - j)) = j + n * (i - j)),
      Nat.add_mul_mod_self_left]
    exact Nat.mod_eq_of_lt hj
  · refine ⟨i + n - j, by omega, ?_⟩
    obtain ⟨k', hk'⟩ : ∃ k', i + n - j = k' + 1 := ⟨i + n - j - 1, by omega⟩
    have hkK : k' ≤ n * k' := Nat.le_mul_of_pos_left _ (by omega)
    rw [hk', Nat.sub_mul, Nat.one_mul, Nat.mul_succ,
      (by omega : i + (n * k' + n - (k' + 1)) = j + n * k'),
      Nat.add_mul_mod_self_left]
    exact Nat.mod_eq_of_lt hj

/-- C6 (amended): for every polygon whose edges form a cyclic ring (each
edge's `prev` is the cyclic predecessor index and `next` the cyclic
successor) and which has at least one edge of non-zero length under
tolerance, both tangent walks terminate within the polygon's edge count,
returning a non-zero-length edge; on a polygon all of whose edges have zero
length the walks (and `ray_shoot`) do not terminate, so the claim's "for
every polygon" fails. -/
theorem walk_ring_terminates (edges : List Edge) (i : Nat)
    (hi : i < edges.length)
    (hprev : ∀ j, j < edges.length →
      (edges.getD j dummyEdge).prev = (j + (edges.length - 1)) % edges.length)
    (hnext : ∀ j, j < edges.length →
      (edges.getD j dummyEdge).next = (j + 1) % edges.length)
    (hnz : ∃ j, j < edges.length ∧
      EQ_0 ((edges.getD j dummyEdge).shape.length) = false) :
    (∃ e, walkPrev edges edges.length i = some e ∧
      EQ_0 e.shape.length = false) ∧
    (∃ e, walkNext edges edges.length i = some e ∧
      EQ_0 e.shape.length = false) := by
  obtain ⟨j, hj, hnzj⟩ := hnz
  constructor
  · obtain ⟨k, hk, hhit⟩ := ring_hit_back edges.length i j hi hj
    exact walkPrev_finds edges (edges.length - 1) hprev edges.length i hi
      ⟨k, hk, by rw [hhit]; exact hnzj⟩
  · obtain ⟨k, hk, hhit⟩ := ring_hit_fwd edges.length i j hi hj
    exact walkNext_finds edges 1 hnext edges.length i hi
      ⟨k, hk, by rw [hhit]; exact hnzj⟩

section EvalWitness

attribute [local semireducible] Rat.add Rat.sub Rat.mul Rat.inv

/-- Witness for the amended C6 on the two-edge ring fixture: starting from
the zero-length edge 0, both walks find the unit-length edge within the edge
count. -/
theorem walk_ring_terminates_witness :
    (∃ e, walkPrev ringTwo ringTwo.length 0 = some e ∧
      EQ_0 e.shape.length = false) ∧
    (∃ e, walkNext ringTwo ringTwo.length 0 = some e ∧
      EQ_0 e.shape.length = false) :=
  walk_ring_terminates ringTwo 0 (by decide) (by decide) (by decide)
    ⟨1, by decide, by decide⟩

end EvalWitness

/-- Helper: arctan is positive on positive arguments. -/
theorem arctan_pos_of_pos {u : ℝ} (h : 0 < u) : 0 < Real.arctan u := by
  have h2 := Real.arctan_strictMono h
  rwa [Real.arctan_zero] at h2

/-- Helper: arctan is negative on negative arguments. -/
theorem arctan_neg_of_neg {u : ℝ} (h : u < 0) : Real.arctan u < 0 := by
  have h2 := Real.arctan_strictMono h
  rwa [Real.arctan_zero] at h2

/-- Helper: slope of a vector in the open first quadrant. -/
theorem vectorSlope_q1 {x y : ℝ} (hx : 0 < x) (hy : 0 < y) :
    0 < vectorSlope x y ∧ vectorSlope x y < Real.pi / 2 := by
  have h1 : 0 < Real.arctan (y / x) := arctan_pos_of_pos (div_pos hy hx)
  have h2 : Real.arctan (y / x) < Real.pi / 2 := Real.arctan_lt_pi_div_two _
  simp only [vectorSlope, jsAtan2]
  rw [if_pos hx, if_neg (by linarith : ¬Real.arctan (y / x) < 0)]
  exact ⟨h1, h2⟩

/-- Helper: slope of a vector on the positive x-axis. -/
theorem vectorSlope_xpos {x y : ℝ} (hx : 0 < x) (hy : y = 0) :
    vectorSlope x y = 0 := by
  subst hy
  simp only [vectorSlope, jsAtan2]
  rw [if_pos hx, zero_div, Real.arctan_zero,
    if_neg (by linarith : ¬(0 : ℝ) < 0)]

/-- Helper: slope of a vector on the positive y-axis. -/
theorem vectorSlope_ypos {x y : ℝ} (hx : x = 0) (hy : 0 < y) :
    vectorSlope x y = Real.pi / 2 := by
  have hpi := Real.pi_pos
  subst hx
  simp only [vectorSlope, jsAtan2]
  rw [if_neg (by linarith : ¬(0 : ℝ) < 0), if_neg (by linarith : ¬(0 : ℝ) < 0),
    if_pos hy, if_neg (by linarith : ¬Real.pi / 2 < 0)]

/-- Helper: slope of a vector in the open second quadrant. -/
theorem vectorSlope_q2 {x y : ℝ} (hx : x < 0) (hy : 0 < y) :
    Real.pi / 2 < vectorSlope x y ∧ vectorSlope x y < Real.pi := by
  have h1 : Real.arctan (y / x) < 0 :=
    arctan_neg_of_neg (div_neg_of_pos_of_neg hy hx)
  have h2 : -(Real.pi / 2) < Real.arctan (y / x) :=
    Real.neg_pi_div_two_lt_arctan _
  simp only [vectorSlope, jsAtan2]
  rw [if_neg (by linarith : ¬(0 : ℝ) < x), if_pos hx,
    if_pos (by linarith : (0 : ℝ) ≤ y),
    if_neg (by linarith : ¬Real.arctan (y / x) + Real.pi < 0)]
  constructor <;> linarith

/-- Helper: slope of a vector on the negative x-axis. -/
theorem vectorSlope_xneg {x y : ℝ} (hx : x < 0) (hy : y = 0) :
    vectorSlope x y = Real.pi := by
  have hpi := Real.pi_pos
  subst hy
  simp only [vectorSlope, jsAtan2]
  rw [if_neg (by linarith : ¬(0 : ℝ) < x), if_pos hx,
    if_pos (by linarith : (0 : ℝ) ≤ 0), zero_div, Real.arctan_zero, zero_add,
    if_neg (by linarith : ¬Real.pi < 0)]

/-- Helper: slope of a vector in the open third quadrant. -/
theorem vectorSlope_q3 {x y : ℝ} (hx : x < 0) (hy : y < 0) :
    Real.pi < vectorSlope x y ∧ vectorSlope x y < 3 * Real.pi / 2 := by
  have h1 : 0 < Real.arctan (y / x) :=
    arctan_pos_of_pos (div_pos_iff.mpr (Or.inr ⟨hy, hx⟩))
  have h2 : Real.arctan (y / x) < Real.pi / 2 := Real.arctan_lt_pi_div_two _
  have hpi := Real.pi_pos
  simp only [vectorSlope, jsAtan2]
  rw [if_neg (by linarith : ¬(0 : ℝ) < x), if_pos hx,
    if_neg (by linarith : ¬(0 : ℝ) ≤ y),
    if_pos (by linarith : Real.arctan (y / x) - Real.pi < 0)]
  constructor <;> linarith

/-- Helper: slope of a vector on the negative y-axis. -/
theorem vectorSlope_yneg {x y : ℝ} (hx : x = 0) (hy : y < 0) :
    vectorSlope x y = 3 * Real.pi / 2 := by
  have hpi := Real.pi_pos
  subst hx
  simp only [vectorSlope, jsAtan2]
  rw [if_neg (by linarith : ¬(0 : ℝ) < 0), if_neg (by linarith : ¬(0 : ℝ) < 0),
    if_neg (by linarith : ¬(0 : ℝ) < y), if_pos hy,
    if_pos (by linarith : -(Real.pi / 2) < 0)]
  ring

/-- Helper: slope of a vector in the open fourth quadrant. -/
theorem vectorSlope_q4 {x y : ℝ} (hx : 0 < x) (hy : y < 0) :
    3 * Real.pi / 2 < vectorSlope x y ∧ vectorSlope x y < 2 * Real.pi := by
  have h1 : Real.arctan (y / x) < 0 :=
    arctan_neg_of_neg (div_neg_of_neg_of_pos hy hx)
  have h2 : -(Real.pi / 2) < Real.arctan (y / x) :=
    Real.neg_pi_div_two_lt_arctan _
  simp only [vectorSlope, jsAtan2]
  rw [if_pos hx, if_pos h1]
  constructor <;> linarith

/-- Helper: slope of the zero vector is zero (as JavaScript `atan2(0,0)`). -/
theorem vectorSlope_zero {x y : ℝ} (hx : x = 0) (hy : y = 0) :
    vectorSlope x y = 0 := by
  subst hx
  subst hy
  simp only [vectorSlope, jsAtan2]
  rw [if_neg (by linarith : ¬(0 : ℝ) < 0), if_neg (by linarith : ¬(0 : ℝ) < 0),
    if_neg (by linarith : ¬(0 : ℝ) < 0), if_neg (by linarith : ¬(0 : ℝ) < 0),
    if_neg (by linarith : ¬(0 : ℝ) < 0)]

/-- Helper: the slope lies strictly between `π/2` and `3π/2` exactly when
the vector points into the open left half plane. -/
theorem slope_between_iff (x y : ℝ) :
    (Real.pi / 2 < vectorSlope x y ∧ vectorSlope x y < 3 * Real.pi / 2) ↔
      x < 0 := by
  have hpi := Real.pi_pos
  rcases lt_trichotomy x 0 with hx | hx | hx
  · refine iff_of_true ?_ hx
    rcases lt_trichotomy y 0 with hy | hy | hy
    · have h := vectorSlope_q3 hx hy
      exact ⟨by linarith [h.1], h.2⟩
    · rw [vectorSlope_xneg hx hy]
      constructor <;> linarith
    · have h := vectorSlope_q2 hx hy
      exact ⟨h.1, by linarith [h.2]⟩
  · refine iff_of_false ?_ (by rw [hx]; exact lt_irrefl 0)
    rcases lt_trichotomy y 0 with hy | hy | hy
    · rw [vectorSlope_yneg hx hy]
      intro h
      exact absurd h.2 (lt_irrefl _)
    · rw [vectorSlope_zero hx hy]
      intro h
      linarith [h.1]
    · rw [vectorSlope_ypos hx hy]
      intro h
      exact absurd h.1 (lt_irrefl _)
  · refine iff_of_false ?_ (by intro h; linarith)
    rcases lt_trichotomy y 0 with hy | hy | hy
    · have h := vectorSlope_q4 hx hy
      intro hc
      linarith [h.1, hc.2]
    · rw [vectorSlope_xpos hx hy]
      intro h
      linarith [h.1]
    · have h := vectorSlope_q1 hx hy
      intro hc
      linarith [h.2, hc.1]

/-- Helper: the slope lies in the closed band `[π/2, 3π/2]` exactly when the
vector points into the closed left half plane but is not on the (weakly)
positive x-axis. -/
theorem slope_band_iff (x y : ℝ) :
    (Real.pi / 2 ≤ vectorSlope x y ∧ vectorSlope x y ≤ 3 * Real.pi / 2) ↔
      (x < 0 ∨ (x = 0 ∧ y ≠ 0)) := by
  have hpi := Real.pi_pos
  rcases lt_trichotomy x 0 with hx | hx | hx
  · refine iff_of_true ?_ (Or.inl hx)
    rcases lt_trichotomy y 0 with hy | hy | hy
    · have h := vectorSlope_q3 hx hy
      constructor <;> linarith [h.1, h.2]
    · rw [vectorSlope_xneg hx hy]
      constructor <;> linarith
    · have h := vectorSlope_q2 hx hy
      constructor <;> linarith [h.1, h.2]
  · rcases lt_trichotomy y 0 with hy | hy | hy
    · refine iff_of_true ?_ (Or.inr ⟨hx, ne_of_lt hy⟩)
      rw [vectorSlope_yneg hx hy]
      constructor <;> linarith
    · refine iff_of_false ?_ ?_
      · rw [vectorSlope_zero hx hy]
        intro h
        linarith [h.1]
      · rintro (h | ⟨_, h⟩)
        · linarith
        · exact h hy
    · refine iff_of_true ?_ (Or.inr ⟨hx, ne_of_gt hy⟩)
      rw [vectorSlope_ypos hx hy]
      constructor <;> linarith
  · refine iff_of_false ?_ ?_
    · rcases lt_trichotomy y 0 with hy | hy | hy
      · have h := vectorSlope_q4 hx hy
        intro hc
        linarith [h.1, hc.2]
      · rw [vectorSlope_xpos hx hy]
        intro h
        linarith [h.1]
      · have h := vectorSlope_q1 hx hy
        intro hc
        linarith [h.2, hc.1]
    · rintro (h | ⟨h, _⟩) <;> linarith

/-- Helper: the slope lies in `[0, π]` exactly when the vector points into
the closed upper half plane. -/
theorem slope_low_iff (x y : ℝ) :
    (0 ≤ vectorSlope x y ∧ vectorSlope x y ≤ Real.pi) ↔ 0 ≤ y := by
  have hpi := Real.pi_pos
  rcases lt_trichotomy y 0 with hy | hy | hy
  · refine iff_of_false ?_ (by intro h; linarith)
    rcases lt_trichotomy x 0 with hx | hx | hx
    · have h := vectorSlope_q3 hx hy
      intro hc
      linarith [h.1, hc.2]
    · rw [vectorSlope_yneg hx hy]
      intro h
      linarith [h.2]
    · have h := vectorSlope_q4 hx hy
      intro hc
      linarith [h.1, hc.2]
  · refine iff_of_true ?_ (by rw [hy])
    rcases lt_trichotomy x 0 with hx | hx | hx
    · rw [vectorSlope_xneg hx hy]
      constructor <;> linarith
    · rw [vectorSlope_zero hx hy]
      constructor <;> linarith
    · rw [vectorSlope_xpos hx hy]
      constructor <;> linarith
  · refine iff_of_true ?_ (le_of_lt hy)
    rcases lt_trichotomy x 0 with hx | hx | hx
    · have h := vectorSlope_q2 hx hy
      constructor <;> linarith [h.1, h.2]
    · rw [vectorSlope_ypos hx hy]
      constructor <;> linarith
    · have h := vectorSlope_q1 hx hy
      constructor <;> linarith [h.1, h.2]

/-- Helper: the slope lies in `[π, 2π]` or equals `0` exactly when the
vector points into the closed lower half plane. -/
theorem slope_high_iff (x y : ℝ) :
    ((Real.pi ≤ vectorSlope x y ∧ vectorSlope x y ≤ 2 * Real.pi) ∨
      vectorSlope x y = 0) ↔ y ≤ 0 := by
  have hpi := Real.pi_pos
  rcases lt_trichotomy y 0 with hy | hy | hy
  · refine iff_of_true ?_ (le_of_lt hy)
    rcases lt_trichotomy x 0 with hx | hx | hx
    · have h := vectorSlope_q3 hx hy
      exact Or.inl ⟨by linarith [h.1], by linarith [h.2]⟩
    · rw [vectorSlope_yneg hx hy]
      exact Or.inl ⟨by linarith, by linarith⟩
    · have h := vectorSlope_q4 hx hy
      exact Or.inl ⟨by linarith [h.1], by linarith [h.2]⟩
  · refine iff_of_true ?_ (by rw [hy])
    rcases lt_trichotomy x 0 with hx | hx | hx
    · rw [vectorSlope_xneg hx hy]
      exact Or.inl ⟨by linarith, by linarith⟩
    · exact Or.inr (vectorSlope_zero hx hy)
    · exact Or.inr (vectorSlope_xpos hx hy)
  · refine iff_of_false ?_ (by intro h; linarith)
    rcases lt_trichotomy x 0 with hx | hx | hx
    · have h := vectorSlope_q2 hx hy
      rintro (hc | hc)
      · linarith [h.2, hc.1]
      · linarith [h.1, hc ▸ h.1]
    · rw [vectorSlope_ypos hx hy]
      rintro (hc | hc) <;> linarith [hc]
    · have h := vectorSlope_q1 hx hy
      rintro (hc | hc)
      · linarith [h.2, hc.1]
      · linarith [h.1]

/-- C9: the half-infinite bounding box of a ray follows the slope formulas
of the source: `xmin` is the start's x unless the slope is strictly between
`π/2` and `3π/2` (then `-∞`); `xmax` is the start's x when the slope is in
`[π/2, 3π/2]` (else `+∞`); `ymin` is the start's y when the slope is in
`[0, π]` (else `-∞`); `ymax` is the start's y when the slope is in `[π, 2π]`
or equals `0` (else `+∞`). -/
theorem ray_box_slope_formulas (r : Ray) :
    (r.box.xmin = ExtQ.ninf ↔
      (Real.pi / 2 < r.slope ∧ r.slope < 3 * Real.pi / 2)) ∧
    (r.box.xmin = ExtQ.fin r.pt.x ↔
      ¬(Real.pi / 2 < r.slope ∧ r.slope < 3 * Real.pi / 2)) ∧
    (r.box.xmax = ExtQ.fin r.pt.x ↔
      (Real.pi / 2 ≤ r.slope ∧ r.slope ≤ 3 * Real.pi / 2)) ∧
    (r.box.xmax = ExtQ.pinf ↔
      ¬(Real.pi / 2 ≤ r.slope ∧ r.slope ≤ 3 * Real.pi / 2)) ∧
    (r.box.ymin = ExtQ.fin r.pt.y ↔ (0 ≤ r.slope ∧ r.slope ≤ Real.pi)) ∧
    (r.box.ymin = ExtQ.ninf ↔ ¬(0 ≤ r.slope ∧ r.slope ≤ Real.pi)) ∧
    (r.box.ymax = ExtQ.fin r.pt.y ↔
      ((Real.pi ≤ r.slope ∧ r.slope ≤ 2 * Real.pi) ∨ r.slope = 0)) ∧
    (r.box.ymax = ExtQ.pinf ↔
      ¬((Real.pi ≤ r.slope ∧ r.slope ≤ 2 * Real.pi) ∨ r.slope = 0)) := by
  have hxmin := slope_between_iff ((r.norm.y : ℝ)) (-((r.norm.x : ℝ)))
  have hxmax := slope_band_iff ((r.norm.y : ℝ)) (-((r.norm.x : ℝ)))
  have hymin := slope_low_iff ((r.norm.y : ℝ)) (-((r.norm.x : ℝ)))
  have hymax := slope_high_iff ((r.norm.y : ℝ)) (-((r.norm.x : ℝ)))
  have hsx : ((r.norm.y : ℝ)) < 0 ↔ r.norm.y < 0 := by exact_mod_cast Iff.rfl
  have hsy0 : (0 : ℝ) ≤ -((r.norm.x : ℝ)) ↔ r.norm.x ≤ 0 := by
    rw [neg_nonneg]
    exact_mod_cast Iff.rfl
  have hsyn : -((r.norm.x : ℝ)) ≤ 0 ↔ 0 ≤ r.norm.x := by
    rw [neg_nonpos]
    exact_mod_cast Iff.rfl
  have hband : ((r.norm.y : ℝ) < 0 ∨ ((r.norm.y : ℝ) = 0 ∧
      -((r.norm.x : ℝ)) ≠ 0)) ↔
      (r.norm.y < 0 ∨ (r.norm.y = 0 ∧ r.norm.x ≠ 0)) := by
    rw [hsx, neg_ne_zero]
    constructor <;> rintro (h | ⟨h1, h2⟩)
    · exact Or.inl h
    · exact Or.inr ⟨by exact_mod_cast h1, by exact_mod_cast h2⟩
    · exact Or.inl h
    · exact Or.inr ⟨by exact_mod_cast h1, by exact_mod_cast h2⟩
  rw [Ray.slope] at *
  refine ⟨?_, ?_, ?_, ?_, ?_, ?_, ?_, ?_⟩
  · rw [hxmin, hsx]
    by_cases hy : r.norm.y < 0
    · simp only [Ray.box, if_pos hy]
      simpa using hy
    · simp only [Ray.box, if_neg hy]
      simpa using hy
  · rw [hxmin, hsx]
    by_cases hy : r.norm.y < 0
    · simp only [Ray.box, if_pos hy]
      simpa using hy
    · simp only [Ray.box, if_neg hy]
      simpa using hy
  · rw [hxmax, hband]
    by_cases hc : r.norm.y < 0 ∨ (r.norm.y = 0 ∧ r.norm.x ≠ 0)
    · simp only [Ray.box, if_pos hc]
      simpa using hc
    · simp only [Ray.box, if_neg hc]
      simpa using hc
  · rw [hxmax, hband]
    by_cases hc : r.norm.y < 0 ∨ (r.norm.y = 0 ∧ r.norm.x ≠ 0)
    · simp only [Ray.box, if_pos hc]
      exact iff_of_false (by simp) (not_not_intro hc)
    · simp only [Ray.box, if_neg hc]
      simpa using hc
  · rw [hymin, hsy0]
    by_cases hc : r.norm.x ≤ 0
    · simp only [Ray.box, if_pos hc]
      simpa using hc
    · simp only [Ray.box, if_neg hc]
      simpa using hc
  · rw [hymin, hsy0]
    by_cases hc : r.norm.x ≤ 0
    · simp only [Ray.box, if_pos hc]
      simpa using hc
    · simp only [Ray.box, if_neg hc]
      simpa using hc
  · rw [hymax, hsyn]
    by_cases hc : 0 ≤ r.norm.x
    · simp only [Ray.box, if_pos hc]
      simpa using hc
    · simp only [Ray.box, if_neg hc]
      simpa using hc
  · rw [hymax, hsyn]
    by_cases hc : 0 ≤ r.norm.x
    · simp only [Ray.box, if_pos hc]
      simpa using hc
    · simp only [Ray.box, if_neg hc]
      simpa using hc

end Flatten
